import Mathlib

/-!
Shallow embedding of the walletapp ledger transaction engine
(internal/services/wallet_service.go, internal/repositories, and the
pagination code of internal/handlers/transaction_handler.go), together
with proofs about the claims of the specification.

Monetary amounts travel through the Go code as float64.  They are
embedded here as `Fp`: NaN and the two infinities are explicit
constructors and finite values are exact rationals.  Comparisons follow
IEEE-754 (every comparison with NaN is false); finite arithmetic is
idealized as exact rational arithmetic, which is the reading the claims
themselves use for balance arithmetic (`b + a`, `b - a`).

The transactional store is a value of type `DB` (the wallets table and
the append-only transactions table).  Each service call is a function
from a `DB` to a result, a unit-of-work disposition (`UoW`) and the
post-state `DB`: when the Go code's deferred closure rolls the pgx
transaction back, the post-state is the pre-state; when it commits, the
post-state carries all writes made inside the unit of work.  The Go
services close the unit of work in `defer func { if err != nil
\x7b rollback \x7d else \x7b commit \x7d }`, where `err` is the *local*
variable: a `return errors.New(...)` that does not assign `err` (the
insufficient-balance paths) therefore ends in COMMIT of the (empty)
unit of work, and the embedding reproduces that faithfully.

`CreateTransactionTx` failures are modelled by the `appendFails`
parameter: the Go services discard that error (`_ = ...`), so on
failure the record is simply not appended and execution proceeds.
-/

deriving instance DecidableEq for Except

namespace WalletApp

/-- Embedded float64 value: NaN, plus infinity, minus infinity, or a finite value
(idealized as an exact rational). -/
inductive Fp where
  | nan : Fp
  | pinf : Fp
  | ninf : Fp
  | fin : ℚ → Fp
deriving DecidableEq, Repr

/-- IEEE-754 strict less-than on embedded floats: false whenever either side is NaN. -/
def Fp.blt : Fp → Fp → Bool
  | .nan, _ => false
  | _, .nan => false
  | .pinf, _ => false
  | .ninf, .ninf => false
  | .ninf, _ => true
  | .fin _, .pinf => true
  | .fin _, .ninf => false
  | .fin a, .fin b => decide (a < b)

/-- IEEE-754 less-or-equal on embedded floats: false whenever either side is NaN. -/
def Fp.ble : Fp → Fp → Bool
  | .nan, _ => false
  | _, .nan => false
  | .ninf, _ => true
  | _, .pinf => true
  | .pinf, _ => false
  | .fin _, .ninf => false
  | .fin a, .fin b => decide (a ≤ b)

/-- IEEE-754 addition on embedded floats (finite addition idealized as exact):
NaN is absorbing, opposite infinities give NaN. -/
def Fp.add : Fp → Fp → Fp
  | .nan, _ => .nan
  | _, .nan => .nan
  | .pinf, .ninf => .nan
  | .ninf, .pinf => .nan
  | .pinf, _ => .pinf
  | _, .pinf => .pinf
  | .ninf, _ => .ninf
  | _, .ninf => .ninf
  | .fin a, .fin b => .fin (a + b)

/-- IEEE-754 negation on embedded floats. -/
def Fp.neg : Fp → Fp
  | .nan => .nan
  | .pinf => .ninf
  | .ninf => .pinf
  | .fin a => .fin (-a)

/-- IEEE-754 subtraction on embedded floats, via addition of the negation
(so Fp.sub .pinf .pinf = .nan). -/
def Fp.sub (a b : Fp) : Fp := a.add b.neg

/-- Transaction kinds, from internal/models/transaction.go
(DEPOSIT, WITHDRAW, TRANSFER_IN, TRANSFER_OUT). -/
inductive TransactionType where
  | deposit
  | withdraw
  | transferIn
  | transferOut
deriving DecidableEq, Repr

/-- models.Wallet.  Identifier fields are opaque strings; the created/updated
timestamps are omitted because no claim mentions them. -/
structure Wallet where
  id : String
  userID : String
  balance : Fp
deriving DecidableEq, Repr

/-- models.Transaction, restricted to the fields the service layer writes
(ID and timestamps are assigned by the store on insert). -/
structure TransactionRec where
  walletID : String
  type : TransactionType
  amount : Fp
  relatedUserID : Option String
deriving DecidableEq, Repr

/-- The transactional store state: the wallets table and the append-only
transactions table. -/
structure DB where
  wallets : List Wallet
  transactions : List TransactionRec
deriving DecidableEq, Repr

/-- repositories.GetWalletByUserIDTx (src/unnamed/part_003): runs
`SELECT id, user_id, balance, created_at, updated_at FROM wallets WHERE user_id = $1`
inside the open unit of work and scans the first row; a missing row surfaces as the
pgx no-rows error, embedded as `none`. -/
def getWalletByUserIDTx (db : DB) (userID : String) : Option Wallet :=
  db.wallets.find? fun w => w.userID == userID

/-- The verbatim SQL text of GetWalletByUserIDTx (src/unnamed/part_003, line 23). -/
def getWalletByUserIDTxQuery : String :=
  "SELECT id, user_id, balance, created_at, updated_at FROM wallets WHERE user_id = $1"

/-- repositories.UpdateWalletBalanceTx (src/unnamed/part_003): runs
`UPDATE wallets SET balance = $1, updated_at = NOW() WHERE user_id = $2`; every row
whose user_id matches is set to the new balance, and a zero-row update is not an
error. -/
def updateWalletBalanceTx (db : DB) (userID : String) (newBalance : Fp) : DB :=
  { db with
    wallets := db.wallets.map fun w =>
      if w.userID == userID then { w with balance := newBalance } else w }

/-- repositories.CreateTransactionTx (src/unnamed/part_002): INSERT of one row into
the transactions table inside the open unit of work. -/
def createTransactionTx (db : DB) (t : TransactionRec) : DB :=
  { db with transactions := db.transactions ++ [t] }

/-- The error results the wallet service returns: its three errors.New strings, plus
the pgx no-rows error surfaced unchanged when a wallet lookup scans nothing. -/
inductive WErr where
  | amountMustBePositive
  | cannotTransferToSelf
  | insufficientBalance
  | noRows
deriving DecidableEq, Repr

/-- How the unit of work opened by a service call (if any) was closed.  The Go
services close it in a deferred closure that commits when the local `err` variable
is nil and rolls back otherwise. -/
inductive UoW where
  | noTx
  | committed
  | rolledBack
deriving DecidableEq, Repr

/-- services.Transfer (internal/services/wallet_service.go, lines 15-72).
`appendFails` says whether the two CreateTransactionTx inserts fail; the Go code
discards their error (`_ =`), so on failure the records are not written and the
function still commits.  On the insufficient-balance path the Go code returns a
fresh error without assigning the local `err`, so the deferred closure sees
`err == nil` and COMMITS the (empty) unit of work. -/
def Transfer (appendFails : Bool) (db : DB) (fromUserID toUserID : String)
    (amount : Fp) : Except WErr Unit × UoW × DB :=
  if Fp.ble amount (.fin 0) then (.error .amountMustBePositive, .noTx, db)
  else if fromUserID == toUserID then (.error .cannotTransferToSelf, .noTx, db)
  else
    match getWalletByUserIDTx db fromUserID with
    | none => (.error .noRows, .rolledBack, db)
    | some fromWallet =>
      match getWalletByUserIDTx db toUserID with
      | none => (.error .noRows, .rolledBack, db)
      | some toWallet =>
        if Fp.blt fromWallet.balance amount then
          (.error .insufficientBalance, .committed, db)
        else
          let db1 := updateWalletBalanceTx db fromUserID
            (Fp.sub fromWallet.balance amount)
          let db2 := updateWalletBalanceTx db1 toUserID
            (Fp.add toWallet.balance amount)
          let db3 := if appendFails then db2 else
            createTransactionTx db2
              ⟨fromWallet.id, .transferOut, amount, some toUserID⟩
          let db4 := if appendFails then db3 else
            createTransactionTx db3
              ⟨toWallet.id, .transferIn, amount, some fromUserID⟩
          (.ok (), .committed, db4)

/-- services.Deposit (internal/services/wallet_service.go, lines 74-107).  The
returned wallet is the looked-up wallet with its Balance field overwritten by the
new balance. -/
def Deposit (appendFails : Bool) (db : DB) (userID : String) (amount : Fp) :
    Except WErr Wallet × UoW × DB :=
  if Fp.ble amount (.fin 0) then (.error .amountMustBePositive, .noTx, db)
  else
    match getWalletByUserIDTx db userID with
    | none => (.error .noRows, .rolledBack, db)
    | some wallet =>
      let newBalance := Fp.add wallet.balance amount
      let db1 := updateWalletBalanceTx db userID newBalance
      let db2 := if appendFails then db1 else
        createTransactionTx db1 ⟨wallet.id, .deposit, amount, none⟩
      (.ok { wallet with balance := newBalance }, .committed, db2)

/-- services.Withdraw (internal/services/wallet_service.go, lines 109-145).  As in
Transfer, the insufficient-balance return does not assign the local `err`, so that
path ends in COMMIT of the (empty) unit of work. -/
def Withdraw (appendFails : Bool) (db : DB) (userID : String) (amount : Fp) :
    Except WErr Wallet × UoW × DB :=
  if Fp.ble amount (.fin 0) then (.error .amountMustBePositive, .noTx, db)
  else
    match getWalletByUserIDTx db userID with
    | none => (.error .noRows, .rolledBack, db)
    | some wallet =>
      if Fp.blt wallet.balance amount then
        (.error .insufficientBalance, .committed, db)
      else
        let newBalance := Fp.sub wallet.balance amount
        let db1 := updateWalletBalanceTx db userID newBalance
        let db2 := if appendFails then db1 else
          createTransactionTx db1 ⟨wallet.id, .withdraw, amount, none⟩
        (.ok { wallet with balance := newBalance }, .committed, db2)

/-- The balance the store holds for a user (the first matching wallet row). -/
def walletBalance (db : DB) (userID : String) : Option Fp :=
  (getWalletByUserIDTx db userID).map fun w => w.balance

/-- The amount-error kinds of the Transfer HTTP handler
(internal/handlers/transaction_handler.go, lines 49-61). -/
inductive HandlerAmountError where
  | mustBePositive
  | exceedsMaximum
  | invalidAmount
deriving DecidableEq, Repr

/-- The Transfer handler's amount validation, with the source's check order:
`req.Amount <= 0`, then `req.Amount > 1000000`, then
`math.IsNaN(req.Amount) || math.IsInf(req.Amount, 0)`.  The Deposit and Withdraw
handlers (wallet_handler.go) perform no amount validation at all, so on those
paths the service's own `amount <= 0` check is the only validation. -/
def validateTransferAmount (amount : Fp) : Option HandlerAmountError :=
  if Fp.ble amount (.fin 0) then some .mustBePositive
  else if Fp.blt (.fin 1000000) amount then some .exceedsMaximum
  else if amount = .nan ∨ amount = .pinf ∨ amount = .ninf then some .invalidAmount
  else none

/-- Whether the second character list starts with the first. -/
def charsStart : List Char → List Char → Bool
  | [], _ => true
  | _ :: _, [] => false
  | a :: as, b :: bs => a == b && charsStart as bs

/-- Whether the needle occurs contiguously inside the haystack. -/
def charsContain (needle : List Char) : List Char → Bool
  | [] => needle.isEmpty
  | b :: bs => charsStart needle (b :: bs) || charsContain needle bs

/-- One interleaving of two concurrent Withdraw calls on the same wallet that the
store permits because the wallet read (getWalletByUserIDTxQuery) takes no row
lock: both in-transaction reads return the same row before either write happens.
Every step below is the store operation Withdraw performs, with the service's own
guard and balance arithmetic; the result is whether each call succeeded, and the
final store after both units of work commit. -/
def withdrawUnlockedRace (db : DB) (u : String) (amount : Fp) : Bool × Bool × DB :=
  match getWalletByUserIDTx db u with
  | none => (false, false, db)
  | some w =>
    if Fp.blt w.balance amount then (false, false, db)
    else
      let db1 := updateWalletBalanceTx db u (Fp.sub w.balance amount)
      if Fp.blt w.balance amount then (true, false, db1)
      else (true, true, updateWalletBalanceTx db1 u (Fp.sub w.balance amount))

/-- A balance-mutating service call, for stating store invariants uniformly over
the three operations. -/
inductive Op where
  | dep (userID : String) (amount : Fp)
  | wd (userID : String) (amount : Fp)
  | tr (fromUserID toUserID : String) (amount : Fp)

/-- The amount argument of an operation. -/
def Op.amount : Op → Fp
  | .dep _ a => a
  | .wd _ a => a
  | .tr _ _ a => a

/-- Run one service call, keeping its unit-of-work disposition and post-state. -/
def applyOp (af : Bool) (db : DB) : Op → UoW × DB
  | .dep u a => (Deposit af db u a).2
  | .wd u a => (Withdraw af db u a).2
  | .tr fu tu a => (Transfer af db fu tu a).2

/-- Every stored balance is non-negative in the IEEE order.  A NaN balance
violates this, since no comparison with NaN holds. -/
def balancesNonneg (db : DB) : Prop :=
  ∀ w ∈ db.wallets, Fp.ble (.fin 0) w.balance = true

/-- A Go slice expression xs[lo:hi]: defined (some) exactly when
0 <= lo <= hi <= len(xs), the condition under which the Go expression does not
panic with an out-of-range index. -/
def goSlice (xs : List TransactionRec) (lo hi : ℕ) : Option (List TransactionRec) :=
  if lo ≤ hi ∧ hi ≤ xs.length then some ((xs.drop lo).take (hi - lo)) else none

/-- The in-memory pagination of GetTransactionHistory
(internal/handlers/transaction_handler.go, lines 137-146): with start := offset
and stop := offset + limit, if start >= len(txs) the result is the empty list,
else if stop > len(txs) it is txs[start:], else txs[start:stop].  Offset and
limit are embedded as naturals: the surrounding parsing admits only offset >= 0
and 1 <= limit <= 100 (or the defaults 0 and 50). -/
def paginateTransactions (txs : List TransactionRec) (offset limit : ℕ) :
    Option (List TransactionRec) :=
  if txs.length ≤ offset then some []
  else if txs.length < offset + limit then goSlice txs offset txs.length
  else goSlice txs offset (offset + limit)

end WalletApp

namespace WalletApp

/-- Finding a wallet by user after setting that user's balance returns the wallet the
lookup would have found before, with its balance overwritten. -/
theorem find_setBalance_self (l : List Wallet) (u : String) (v : Fp) :
    (l.map fun w => if w.userID == u then { w with balance := v } else w).find?
        (fun w => w.userID == u)
      = (l.find? fun w => w.userID == u).map fun w => { w with balance := v } := by
  rw [List.find?_map]
  have hpg : ((fun (w : Wallet) => w.userID == u) ∘
        fun (w : Wallet) => if w.userID == u then { w with balance := v } else w)
      = fun (w : Wallet) => w.userID == u := by
    funext w
    by_cases hw : w.userID = u <;> simp [hw]
  rw [hpg]
  cases hf : l.find? (fun w => w.userID == u) with
  | none => rfl
  | some w =>
    have hp : w.userID = u := by
      have := List.find?_some hf
      simpa using this
    simp [hp]

/-- Setting one user's balance does not change what a lookup for a different user
returns. -/
theorem find_setBalance_other (l : List Wallet) (u u' : String) (v : Fp)
    (h : u' ≠ u) :
    (l.map fun w => if w.userID == u then { w with balance := v } else w).find?
        (fun w => w.userID == u')
      = l.find? fun w => w.userID == u' := by
  rw [List.find?_map]
  have hpg : ((fun (w : Wallet) => w.userID == u') ∘
        fun (w : Wallet) => if w.userID == u then { w with balance := v } else w)
      = fun (w : Wallet) => w.userID == u' := by
    funext w
    by_cases hw : w.userID = u <;> simp [hw]
  rw [hpg]
  cases hf : l.find? (fun w => w.userID == u') with
  | none => rfl
  | some w =>
    have hp : w.userID = u' := by
      have := List.find?_some hf
      simpa using this
    have hne : ¬ w.userID = u := by
      rw [hp]
      exact h
    simp [hne]

/-- walletBalance after updateWalletBalanceTx for the same user: the stored balance
becomes the written value whenever the wallet exists. -/
theorem walletBalance_update_self (db : DB) (u : String) (v : Fp) (w : Wallet)
    (hw : getWalletByUserIDTx db u = some w) :
    walletBalance (updateWalletBalanceTx db u v) u = some v := by
  unfold walletBalance getWalletByUserIDTx updateWalletBalanceTx
  rw [find_setBalance_self]
  unfold getWalletByUserIDTx at hw
  rw [hw]
  rfl

/-- getWalletByUserIDTx after updateWalletBalanceTx for a different user is
unchanged. -/
theorem getWallet_update_other (db : DB) (u u' : String) (v : Fp) (h : u' ≠ u) :
    getWalletByUserIDTx (updateWalletBalanceTx db u v) u'
      = getWalletByUserIDTx db u' := by
  unfold getWalletByUserIDTx updateWalletBalanceTx
  exact find_setBalance_other db.wallets u u' v h

/-- createTransactionTx leaves the wallets table untouched. -/
theorem getWallet_append (db : DB) (t : TransactionRec) (u : String) :
    getWalletByUserIDTx (createTransactionTx db t) u = getWalletByUserIDTx db u := rfl

/-- updateWalletBalanceTx leaves the transactions table untouched. -/
theorem transactions_update (db : DB) (u : String) (v : Fp) :
    (updateWalletBalanceTx db u v).transactions = db.transactions := rfl

/-- createTransactionTx does not change any stored balance. -/
theorem walletBalance_append (db : DB) (t : TransactionRec) (u : String) :
    walletBalance (createTransactionTx db t) u = walletBalance db u := rfl

theorem Fp.add_fin (a b : ℚ) : Fp.add (.fin a) (.fin b) = .fin (a + b) := rfl

theorem Fp.sub_fin (a b : ℚ) : Fp.sub (.fin a) (.fin b) = .fin (a - b) := by
  simp [Fp.sub, Fp.add, Fp.neg, sub_eq_add_neg]

theorem Fp.ble_fin_of_not_le (a b : ℚ) (h : ¬ a ≤ b) :
    Fp.ble (.fin a) (.fin b) = false := by
  simp [Fp.ble]
  exact not_le.mp h

theorem Fp.blt_fin_of_lt (a b : ℚ) (h : a < b) :
    Fp.blt (.fin a) (.fin b) = true := by
  simp [Fp.blt]
  exact h

theorem Fp.blt_fin_of_not_lt (a b : ℚ) (h : ¬ a < b) :
    Fp.blt (.fin a) (.fin b) = false := by
  simp [Fp.blt]
  exact not_lt.mp h

/-- Run equation for a Withdraw whose validation passes and whose wallet exists,
in the sufficient-balance case. -/
theorem withdraw_run (af : Bool) (db : DB) (u : String) (w : Wallet) (a b : ℚ)
    (ha : 0 < a) (hw : getWalletByUserIDTx db u = some w) (hb : w.balance = .fin b)
    (hle : a ≤ b) :
    Withdraw af db u (.fin a)
      = (.ok { w with balance := .fin (b - a) }, .committed,
         if af then updateWalletBalanceTx db u (.fin (b - a))
         else createTransactionTx (updateWalletBalanceTx db u (.fin (b - a)))
                ⟨w.id, .withdraw, .fin a, none⟩) := by
  have hguard : Fp.ble (.fin a) (.fin 0) = false :=
    Fp.ble_fin_of_not_le a 0 (not_le.mpr ha)
  have hblt : Fp.blt w.balance (.fin a) = false := by
    rw [hb]
    exact Fp.blt_fin_of_not_lt b a (not_lt.mpr hle)
  have hsub : Fp.sub w.balance (.fin a) = .fin (b - a) := by rw [hb, Fp.sub_fin]
  unfold Withdraw
  rw [hguard, hw]
  simp only [Bool.false_eq_true, if_false, hblt, hsub]

/-- Run equation for a Withdraw whose validation passes and whose wallet exists,
in the insufficient-balance case: the Go code returns a fresh error without
assigning the deferred-checked err variable, so the (empty) unit of work is
committed and the store is unchanged. -/
theorem withdraw_run_insufficient (af : Bool) (db : DB) (u : String) (w : Wallet)
    (a b : ℚ) (ha : 0 < a) (hw : getWalletByUserIDTx db u = some w)
    (hb : w.balance = .fin b) (hlt : b < a) :
    Withdraw af db u (.fin a) = (.error .insufficientBalance, .committed, db) := by
  have hguard : Fp.ble (.fin a) (.fin 0) = false :=
    Fp.ble_fin_of_not_le a 0 (not_le.mpr ha)
  have hblt : Fp.blt w.balance (.fin a) = true := by
    rw [hb]
    exact Fp.blt_fin_of_lt b a hlt
  unfold Withdraw
  rw [hguard, hw]
  simp only [Bool.false_eq_true, if_false, hblt, if_true]

/-- Run equation for a Deposit whose validation passes and whose wallet exists. -/
theorem deposit_run (af : Bool) (db : DB) (u : String) (w : Wallet) (a b : ℚ)
    (ha : 0 < a) (hw : getWalletByUserIDTx db u = some w) (hb : w.balance = .fin b) :
    Deposit af db u (.fin a)
      = (.ok { w with balance := .fin (b + a) }, .committed,
         if af then updateWalletBalanceTx db u (.fin (b + a))
         else createTransactionTx (updateWalletBalanceTx db u (.fin (b + a)))
                ⟨w.id, .deposit, .fin a, none⟩) := by
  have hguard : Fp.ble (.fin a) (.fin 0) = false :=
    Fp.ble_fin_of_not_le a 0 (not_le.mpr ha)
  have hadd : Fp.add w.balance (.fin a) = .fin (b + a) := by rw [hb, Fp.add_fin]
  unfold Deposit
  rw [hguard, hw]
  simp only [Bool.false_eq_true, if_false, hadd]

/-- Run equation for a Transfer whose validation passes, whose wallets both exist
and whose source balance suffices. -/
theorem transfer_run (af : Bool) (db : DB) (fu tu : String) (fw tw : Wallet)
    (a b1 b2 : ℚ) (hne : fu ≠ tu) (ha : 0 < a)
    (hf : getWalletByUserIDTx db fu = some fw)
    (ht : getWalletByUserIDTx db tu = some tw)
    (hb1 : fw.balance = .fin b1) (hb2 : tw.balance = .fin b2) (hle : a ≤ b1) :
    Transfer af db fu tu (.fin a)
      = (.ok (), .committed,
         let db2 := updateWalletBalanceTx
           (updateWalletBalanceTx db fu (.fin (b1 - a))) tu (.fin (b2 + a))
         if af then db2
         else createTransactionTx
                (createTransactionTx db2 ⟨fw.id, .transferOut, .fin a, some tu⟩)
                ⟨tw.id, .transferIn, .fin a, some fu⟩) := by
  have hguard : Fp.ble (.fin a) (.fin 0) = false :=
    Fp.ble_fin_of_not_le a 0 (not_le.mpr ha)
  have hne2 : (fu == tu) = false := beq_eq_false_iff_ne.mpr hne
  have hblt : Fp.blt fw.balance (.fin a) = false := by
    rw [hb1]
    exact Fp.blt_fin_of_not_lt b1 a (not_lt.mpr hle)
  have hsub : Fp.sub fw.balance (.fin a) = .fin (b1 - a) := by rw [hb1, Fp.sub_fin]
  have hadd : Fp.add tw.balance (.fin a) = .fin (b2 + a) := by rw [hb2, Fp.add_fin]
  unfold Transfer
  rw [hguard, hne2, hf, ht]
  simp only [Bool.false_eq_true, if_false, hblt, hsub, hadd]
  cases af <;> rfl

/-- Run equation for a Transfer whose validation passes, whose wallets both exist
and whose source balance is insufficient: as in Withdraw, the unit of work is
committed empty and the store is unchanged. -/
theorem transfer_run_insufficient (af : Bool) (db : DB) (fu tu : String)
    (fw tw : Wallet) (a b1 : ℚ) (hne : fu ≠ tu) (ha : 0 < a)
    (hf : getWalletByUserIDTx db fu = some fw)
    (ht : getWalletByUserIDTx db tu = some tw)
    (hb1 : fw.balance = .fin b1) (hlt : b1 < a) :
    Transfer af db fu tu (.fin a) = (.error .insufficientBalance, .committed, db) := by
  have hguard : Fp.ble (.fin a) (.fin 0) = false :=
    Fp.ble_fin_of_not_le a 0 (not_le.mpr ha)
  have hne2 : (fu == tu) = false := beq_eq_false_iff_ne.mpr hne
  have hblt : Fp.blt fw.balance (.fin a) = true := by
    rw [hb1]
    exact Fp.blt_fin_of_lt b1 a hlt
  unfold Transfer
  rw [hguard, hne2, hf, ht]
  simp only [Bool.false_eq_true, if_false, hblt, if_true]

/-- Setting one user's balance does not change another user's stored balance. -/
theorem walletBalance_update_other (db : DB) (u u' : String) (v : Fp)
    (h : u' ≠ u) :
    walletBalance (updateWalletBalanceTx db u v) u' = walletBalance db u' := by
  unfold walletBalance
  rw [getWallet_update_other db u u' v h]

end WalletApp

namespace WalletApp

/-- C5: for every Withdraw of a positive finite amount a from an existing wallet
with finite balance b: if a <= b the call returns the wallet with balance b - a and
the stored balance becomes b - a; if a > b the call fails with the
insufficient-balance error and the store is unchanged (no partial mutation). -/
theorem C5_withdraw_correct (af : Bool) (db : DB) (u : String) (w : Wallet)
    (a b : ℚ) (ha : 0 < a) (hw : getWalletByUserIDTx db u = some w)
    (hb : w.balance = .fin b) :
    (a ≤ b →
      (Withdraw af db u (.fin a)).1 = .ok { w with balance := .fin (b - a) }
      ∧ walletBalance (Withdraw af db u (.fin a)).2.2 u = some (.fin (b - a)))
    ∧ (b < a →
      (Withdraw af db u (.fin a)).1 = .error .insufficientBalance
      ∧ (Withdraw af db u (.fin a)).2.2 = db) := by
  constructor
  · intro hle
    rw [withdraw_run af db u w a b ha hw hb hle]
    refine ⟨rfl, ?_⟩
    cases af with
    | false =>
      show walletBalance
          (createTransactionTx (updateWalletBalanceTx db u (.fin (b - a)))
            ⟨w.id, .withdraw, .fin a, none⟩) u = some (.fin (b - a))
      rw [walletBalance_append, walletBalance_update_self db u _ w hw]
    | true =>
      show walletBalance (updateWalletBalanceTx db u (.fin (b - a))) u
          = some (.fin (b - a))
      exact walletBalance_update_self db u _ w hw
  · intro hlt
    rw [withdraw_run_insufficient af db u w a b ha hw hb hlt]
    exact ⟨rfl, rfl⟩

/-- Witness for C5 at a concrete input: balance 10, withdraw 3. -/
theorem C5_withdraw_correct_witness :
    (0:ℚ) < 3 ∧
    (((3:ℚ) ≤ 10 →
      (Withdraw false ⟨[⟨"w1", "u1", .fin 10⟩], []⟩ "u1" (.fin 3)).1
          = .ok ⟨"w1", "u1", .fin (10 - 3)⟩
      ∧ walletBalance (Withdraw false ⟨[⟨"w1", "u1", .fin 10⟩], []⟩ "u1"
            (.fin 3)).2.2 "u1"
          = some (.fin (10 - 3)))
    ∧ ((10:ℚ) < 3 →
      (Withdraw false ⟨[⟨"w1", "u1", .fin 10⟩], []⟩ "u1" (.fin 3)).1
          = .error .insufficientBalance
      ∧ (Withdraw false ⟨[⟨"w1", "u1", .fin 10⟩], []⟩ "u1" (.fin 3)).2.2
          = ⟨[⟨"w1", "u1", .fin 10⟩], []⟩)) :=
  ⟨by norm_num,
   C5_withdraw_correct false ⟨[⟨"w1", "u1", .fin 10⟩], []⟩ "u1"
     ⟨"w1", "u1", .fin 10⟩ 3 10 (by norm_num) rfl rfl⟩

/-- C7: a valid Deposit of finite amount a to an existing wallet with finite
balance b commits, returns the wallet with balance b + a, stores balance b + a,
appends exactly one DEPOSIT record of amount a with no counterparty in the same
unit of work, and mutates no other wallet. -/
theorem C7_deposit_correct (db : DB) (u : String) (w : Wallet) (a b : ℚ)
    (ha : 0 < a) (hw : getWalletByUserIDTx db u = some w)
    (hb : w.balance = .fin b) :
    (Deposit false db u (.fin a)).1 = .ok { w with balance := .fin (b + a) }
    ∧ (Deposit false db u (.fin a)).2.1 = .committed
    ∧ walletBalance (Deposit false db u (.fin a)).2.2 u = some (.fin (b + a))
    ∧ (Deposit false db u (.fin a)).2.2.transactions
        = db.transactions ++ [⟨w.id, .deposit, .fin a, none⟩]
    ∧ ∀ u', u' ≠ u →
        getWalletByUserIDTx (Deposit false db u (.fin a)).2.2 u'
          = getWalletByUserIDTx db u' := by
  rw [deposit_run false db u w a b ha hw hb]
  refine ⟨rfl, rfl, ?_, rfl, ?_⟩
  · show walletBalance
        (createTransactionTx (updateWalletBalanceTx db u (.fin (b + a)))
          ⟨w.id, .deposit, .fin a, none⟩) u = some (.fin (b + a))
    rw [walletBalance_append, walletBalance_update_self db u _ w hw]
  · intro u' hu'
    show getWalletByUserIDTx
        (createTransactionTx (updateWalletBalanceTx db u (.fin (b + a)))
          ⟨w.id, .deposit, .fin a, none⟩) u' = getWalletByUserIDTx db u'
    rw [getWallet_append, getWallet_update_other db u u' _ hu']

/-- Witness for C7 at a concrete input: balance 10, deposit 5, a second wallet
that must stay untouched. -/
theorem C7_deposit_correct_witness :
    (0:ℚ) < 5 ∧
    ((Deposit false ⟨[⟨"w1", "u1", .fin 10⟩, ⟨"w2", "u2", .fin 7⟩], []⟩ "u1"
          (.fin 5)).1
        = .ok ⟨"w1", "u1", .fin (10 + 5)⟩
    ∧ (Deposit false ⟨[⟨"w1", "u1", .fin 10⟩, ⟨"w2", "u2", .fin 7⟩], []⟩ "u1"
          (.fin 5)).2.1 = .committed
    ∧ walletBalance (Deposit false ⟨[⟨"w1", "u1", .fin 10⟩, ⟨"w2", "u2", .fin 7⟩],
          []⟩ "u1" (.fin 5)).2.2 "u1"
        = some (.fin (10 + 5))
    ∧ (Deposit false ⟨[⟨"w1", "u1", .fin 10⟩, ⟨"w2", "u2", .fin 7⟩], []⟩ "u1"
          (.fin 5)).2.2.transactions
        = [] ++ [⟨"w1", .deposit, .fin 5, none⟩]
    ∧ ∀ u', u' ≠ "u1" →
        getWalletByUserIDTx (Deposit false ⟨[⟨"w1", "u1", .fin 10⟩,
            ⟨"w2", "u2", .fin 7⟩], []⟩ "u1" (.fin 5)).2.2 u'
          = getWalletByUserIDTx ⟨[⟨"w1", "u1", .fin 10⟩, ⟨"w2", "u2", .fin 7⟩], []⟩ u') :=
  ⟨by norm_num,
   C7_deposit_correct ⟨[⟨"w1", "u1", .fin 10⟩, ⟨"w2", "u2", .fin 7⟩], []⟩ "u1"
     ⟨"w1", "u1", .fin 10⟩ 5 10 (by norm_num) rfl rfl⟩

/-- C6: a Transfer of finite amount a between distinct existing wallets with
finite balances b1 and b2, where a <= b1, commits one atomic unit of work in
which the source balance becomes b1 - a, the destination balance becomes b2 + a,
and exactly one TRANSFER_OUT record (source wallet, counterparty the destination
user) and exactly one TRANSFER_IN record (destination wallet, counterparty the
source user), both of amount a, are appended. -/
theorem C6_transfer_correct (db : DB) (fu tu : String) (fw tw : Wallet)
    (a b1 b2 : ℚ) (hne : fu ≠ tu) (ha : 0 < a)
    (hf : getWalletByUserIDTx db fu = some fw)
    (ht : getWalletByUserIDTx db tu = some tw)
    (hb1 : fw.balance = .fin b1) (hb2 : tw.balance = .fin b2) (hle : a ≤ b1) :
    (Transfer false db fu tu (.fin a)).1 = .ok ()
    ∧ (Transfer false db fu tu (.fin a)).2.1 = .committed
    ∧ walletBalance (Transfer false db fu tu (.fin a)).2.2 fu
        = some (.fin (b1 - a))
    ∧ walletBalance (Transfer false db fu tu (.fin a)).2.2 tu
        = some (.fin (b2 + a))
    ∧ (Transfer false db fu tu (.fin a)).2.2.transactions
        = db.transactions
          ++ [⟨fw.id, .transferOut, .fin a, some tu⟩,
              ⟨tw.id, .transferIn, .fin a, some fu⟩] := by
  rw [transfer_run false db fu tu fw tw a b1 b2 hne ha hf ht hb1 hb2 hle]
  have hmid : getWalletByUserIDTx (updateWalletBalanceTx db fu (.fin (b1 - a))) tu
      = some tw := by
    rw [getWallet_update_other db fu tu _ (Ne.symm hne)]
    exact ht
  refine ⟨rfl, rfl, ?_, ?_, ?_⟩
  · show walletBalance
        (createTransactionTx (createTransactionTx
          (updateWalletBalanceTx (updateWalletBalanceTx db fu (.fin (b1 - a))) tu
            (.fin (b2 + a)))
          ⟨fw.id, .transferOut, .fin a, some tu⟩)
          ⟨tw.id, .transferIn, .fin a, some fu⟩) fu = some (.fin (b1 - a))
    rw [walletBalance_append, walletBalance_append,
      walletBalance_update_other _ tu fu _ hne,
      walletBalance_update_self db fu _ fw hf]
  · show walletBalance
        (createTransactionTx (createTransactionTx
          (updateWalletBalanceTx (updateWalletBalanceTx db fu (.fin (b1 - a))) tu
            (.fin (b2 + a)))
          ⟨fw.id, .transferOut, .fin a, some tu⟩)
          ⟨tw.id, .transferIn, .fin a, some fu⟩) tu = some (.fin (b2 + a))
    rw [walletBalance_append, walletBalance_append,
      walletBalance_update_self _ tu _ tw hmid]
  · show (createTransactionTx (createTransactionTx
        (updateWalletBalanceTx (updateWalletBalanceTx db fu (.fin (b1 - a))) tu
          (.fin (b2 + a)))
        ⟨fw.id, .transferOut, .fin a, some tu⟩)
        ⟨tw.id, .transferIn, .fin a, some fu⟩).transactions
      = db.transactions
        ++ [⟨fw.id, .transferOut, .fin a, some tu⟩,
            ⟨tw.id, .transferIn, .fin a, some fu⟩]
    simp [createTransactionTx, updateWalletBalanceTx]

/-- Witness for C6 at a concrete input: the specification's own example scenario,
wallets A(100) and B(50) and a transfer of 30. -/
theorem C6_transfer_correct_witness :
    "uA" ≠ "uB" ∧ (0:ℚ) < 30 ∧ (30:ℚ) ≤ 100 ∧
    ((Transfer false ⟨[⟨"wA", "uA", .fin 100⟩, ⟨"wB", "uB", .fin 50⟩], []⟩ "uA" "uB"
          (.fin 30)).1 = .ok ()
    ∧ (Transfer false ⟨[⟨"wA", "uA", .fin 100⟩, ⟨"wB", "uB", .fin 50⟩], []⟩ "uA" "uB"
          (.fin 30)).2.1 = .committed
    ∧ walletBalance (Transfer false ⟨[⟨"wA", "uA", .fin 100⟩, ⟨"wB", "uB", .fin 50⟩],
          []⟩ "uA" "uB" (.fin 30)).2.2 "uA" = some (.fin (100 - 30))
    ∧ walletBalance (Transfer false ⟨[⟨"wA", "uA", .fin 100⟩, ⟨"wB", "uB", .fin 50⟩],
          []⟩ "uA" "uB" (.fin 30)).2.2 "uB" = some (.fin (50 + 30))
    ∧ (Transfer false ⟨[⟨"wA", "uA", .fin 100⟩, ⟨"wB", "uB", .fin 50⟩], []⟩ "uA" "uB"
          (.fin 30)).2.2.transactions
        = [] ++ [⟨"wA", .transferOut, .fin 30, some "uB"⟩,
                 ⟨"wB", .transferIn, .fin 30, some "uA"⟩]) :=
  ⟨by decide, by norm_num, by norm_num,
   C6_transfer_correct ⟨[⟨"wA", "uA", .fin 100⟩, ⟨"wB", "uB", .fin 50⟩], []⟩
     "uA" "uB" ⟨"wA", "uA", .fin 100⟩ ⟨"wB", "uB", .fin 50⟩ 30 100 50
     (by decide) (by norm_num) rfl rfl rfl rfl (by norm_num)⟩

/-- C1 (amended): when the locked wallet's balance is strictly below the requested
finite amount, Transfer and Withdraw fail with the insufficient-balance error and
leave the store unchanged, but the opened unit of work ends in COMMIT (of an empty
transaction), not rollback: the Go code returns a fresh error without assigning the
local err variable that the deferred commit-or-rollback closure inspects. -/
theorem C1_insufficient_commits (af : Bool) :
    (∀ (db : DB) (fu tu : String) (fw tw : Wallet) (a b1 : ℚ), fu ≠ tu → 0 < a →
      getWalletByUserIDTx db fu = some fw → getWalletByUserIDTx db tu = some tw →
      fw.balance = .fin b1 → b1 < a →
      Transfer af db fu tu (.fin a) = (.error .insufficientBalance, .committed, db))
    ∧ (∀ (db : DB) (u : String) (w : Wallet) (a b : ℚ), 0 < a →
      getWalletByUserIDTx db u = some w → w.balance = .fin b → b < a →
      Withdraw af db u (.fin a) = (.error .insufficientBalance, .committed, db)) :=
  ⟨fun db fu tu fw tw a b1 hne ha hf ht hb1 hlt =>
    transfer_run_insufficient af db fu tu fw tw a b1 hne ha hf ht hb1 hlt,
   fun db u w a b ha hw hb hlt =>
    withdraw_run_insufficient af db u w a b ha hw hb hlt⟩

/-- Witness for C1's amended theorem at concrete inputs: balance 5, request 10. -/
theorem C1_insufficient_commits_witness :
    "u1" ≠ "u2" ∧ (0:ℚ) < 10 ∧ (5:ℚ) < 10 ∧
    Transfer false ⟨[⟨"w1", "u1", .fin 5⟩, ⟨"w2", "u2", .fin 50⟩], []⟩ "u1" "u2"
        (.fin 10)
      = (.error .insufficientBalance, .committed,
         ⟨[⟨"w1", "u1", .fin 5⟩, ⟨"w2", "u2", .fin 50⟩], []⟩) ∧
    Withdraw false ⟨[⟨"w1", "u1", .fin 5⟩], []⟩ "u1" (.fin 10)
      = (.error .insufficientBalance, .committed, ⟨[⟨"w1", "u1", .fin 5⟩], []⟩) :=
  ⟨by decide, by norm_num, by norm_num,
   (C1_insufficient_commits false).1 ⟨[⟨"w1", "u1", .fin 5⟩, ⟨"w2", "u2", .fin 50⟩], []⟩
     "u1" "u2" ⟨"w1", "u1", .fin 5⟩ ⟨"w2", "u2", .fin 50⟩ 10 5
     (by decide) (by norm_num) rfl rfl rfl (by norm_num),
   (C1_insufficient_commits false).2 ⟨[⟨"w1", "u1", .fin 5⟩], []⟩ "u1"
     ⟨"w1", "u1", .fin 5⟩ 10 5 (by norm_num) rfl rfl (by norm_num)⟩

/-- C1 counterexample: at balance 5 and requested amount 10 the withdraw fails
with the insufficient-balance error, yet the opened unit of work is committed —
refuting the claim that it always ends in rollback and never in commit. -/
theorem C1_insufficient_commits_counterexample :
    (Withdraw false ⟨[⟨"w1", "u1", .fin 5⟩], []⟩ "u1" (.fin 10)).1
        = .error .insufficientBalance
    ∧ (Withdraw false ⟨[⟨"w1", "u1", .fin 5⟩], []⟩ "u1" (.fin 10)).2.1
        = .committed
    ∧ UoW.committed ≠ UoW.rolledBack := by
  have h := withdraw_run_insufficient false ⟨[⟨"w1", "u1", .fin 5⟩], []⟩ "u1"
    ⟨"w1", "u1", .fin 5⟩ 10 5 (by norm_num) rfl rfl (by norm_num)
  rw [h]
  exact ⟨rfl, rfl, by decide⟩

/-- C8 (amended): a self transfer never opens a unit of work and never mutates
state; it fails with the self-transfer error whenever the amount passes the
positivity check, and with the non-positive-amount error otherwise, because the
Go code checks `amount <= 0` before `fromUserID == toUserID`. -/
theorem C8_self_transfer (af : Bool) (db : DB) (u : String) (amount : Fp) :
    Transfer af db u u amount
      = ((if Fp.ble amount (.fin 0) then Except.error WErr.amountMustBePositive
          else Except.error WErr.cannotTransferToSelf), UoW.noTx, db) := by
  unfold Transfer
  cases h : Fp.ble amount (.fin 0) with
  | true => simp [h]
  | false => simp [h]

/-- C8 counterexample: a self transfer of amount 0 fails with the
non-positive-amount error, not the self-transfer error — refuting the claim that
SelfTransfer is returned regardless of the amount. -/
theorem C8_self_transfer_counterexample :
    (Transfer false ⟨[], []⟩ "u1" "u1" (.fin 0)).1 = .error .amountMustBePositive
    ∧ (Except.error WErr.amountMustBePositive : Except WErr Unit)
        ≠ .error .cannotTransferToSelf := by
  have hble : Fp.ble (.fin 0) (.fin 0) = true := by simp [Fp.ble]
  constructor
  · show (Transfer false ⟨[], []⟩ "u1" "u1" (.fin 0)).1 = _
    unfold Transfer
    rw [hble]
    rfl
  · decide

/-- C2: evaluating Deposit at a store whose transaction-record insert fails
(appendFails = true): the call still reports success, the unit of work is
committed with the balance updated from 10 to 15, and the transactions table
stays empty — the append error is discarded by `_ =`, so a committed balance
change lacks its matching ledger entry, contradicting the claim that the error
escalates to rollback. -/
theorem C2_append_error_ignored :
    Deposit true ⟨[⟨"w1", "u1", .fin 10⟩], []⟩ "u1" (.fin 5)
      = (.ok ⟨"w1", "u1", .fin 15⟩, .committed, ⟨[⟨"w1", "u1", .fin 15⟩], []⟩) := by
  simp [Deposit, getWalletByUserIDTx, updateWalletBalanceTx, Fp.ble, Fp.add,
    List.find?]
  norm_num

/-- C3: the amount 0.009999 = 9999/1000000 — strictly below the documented $0.01
minimum — passes the Transfer handler's validation, and a Deposit of it is
accepted and committed: no below-minimum check exists anywhere in the code.
Moreover the NaN/infinity check runs last, not first: +infinity is caught by the
maximum check and -infinity by the positivity check, so neither reaches the
invalid-amount error the claim prescribes for them. -/
theorem C3_no_minimum_check :
    validateTransferAmount (.fin (9999 / 1000000)) = none
    ∧ (Deposit false ⟨[⟨"w1", "u1", .fin 0⟩], []⟩ "u1"
        (.fin (9999 / 1000000))).2.1 = .committed
    ∧ validateTransferAmount .pinf = some .exceedsMaximum
    ∧ validateTransferAmount .ninf = some .mustBePositive
    ∧ validateTransferAmount .nan = some .invalidAmount := by
  refine ⟨?_, ?_, rfl, rfl, rfl⟩
  · simp [validateTransferAmount, Fp.ble, Fp.blt]
    norm_num
  · rw [deposit_run false ⟨[⟨"w1", "u1", .fin 0⟩], []⟩ "u1" ⟨"w1", "u1", .fin 0⟩
      (9999 / 1000000) 0 (by norm_num) rfl rfl]

/-- C4: the SQL text of the in-transaction wallet read contains no FOR UPDATE
clause, so the read acquires no exclusive row lock; under the stale-read
interleaving an unlocked read permits, two concurrent withdrawals of 60 against
balance 100 both succeed — exceeding floor(100/60) = 1 — and the final balance is
40, a lost update instead of 100 - 2*60. -/
theorem C4_no_row_lock :
    charsContain "FOR UPDATE".toList getWalletByUserIDTxQuery.toList = false
    ∧ withdrawUnlockedRace ⟨[⟨"w1", "u1", .fin 100⟩], []⟩ "u1" (.fin 60)
        = (true, true, ⟨[⟨"w1", "u1", .fin 40⟩], []⟩)
    ∧ 2 > 100 / 60
    ∧ (Fp.fin 40 : Fp) ≠ .fin (100 - 2 * 60) := by
  refine ⟨by decide, ?_, by decide, ?_⟩
  · simp [withdrawUnlockedRace, getWalletByUserIDTx, updateWalletBalanceTx,
      Fp.blt, Fp.sub, Fp.add, Fp.neg, List.find?]
    norm_num
  · simp only [ne_eq, Fp.fin.injEq]
    norm_num

/-- Updating one user's balance to a non-negative value preserves
non-negativity of all stored balances. -/
theorem balancesNonneg_update (db : DB) (u : String) (v : Fp)
    (hv : Fp.ble (.fin 0) v = true) (h : balancesNonneg db) :
    balancesNonneg (updateWalletBalanceTx db u v) := by
  intro w hw
  simp only [updateWalletBalanceTx, List.mem_map] at hw
  obtain ⟨w0, hw0, hmap⟩ := hw
  by_cases hc : w0.userID = u
  · rw [← hmap]
    simp only [hc, beq_self_eq_true, if_true]
    exact hv
  · rw [← hmap]
    have : (w0.userID == u) = false := beq_eq_false_iff_ne.mpr hc
    simp only [this, Bool.false_eq_true, if_false]
    exact h w0 hw0

/-- Appending a transaction record preserves non-negativity of balances. -/
theorem balancesNonneg_append (db : DB) (t : TransactionRec)
    (h : balancesNonneg db) : balancesNonneg (createTransactionTx db t) := h

/-- Adding a positive finite amount to a non-negative balance keeps it
non-negative. -/
theorem nonneg_add_fin (x : Fp) (a : ℚ) (hx : Fp.ble (.fin 0) x = true)
    (ha : 0 < a) : Fp.ble (.fin 0) (Fp.add x (.fin a)) = true := by
  cases x with
  | nan => simp [Fp.ble] at hx
  | pinf => rfl
  | ninf => simp [Fp.ble] at hx
  | fin b =>
    simp [Fp.ble] at hx
    simp [Fp.add, Fp.ble]
    linarith

/-- Subtracting a finite amount from a non-negative balance that passed the
service's insufficiency guard keeps it non-negative. -/
theorem nonneg_sub_fin (x : Fp) (a : ℚ) (hx : Fp.ble (.fin 0) x = true)
    (hg : Fp.blt x (.fin a) = false) :
    Fp.ble (.fin 0) (Fp.sub x (.fin a)) = true := by
  cases x with
  | nan => simp [Fp.ble] at hx
  | pinf => rfl
  | ninf => simp [Fp.ble] at hx
  | fin b =>
    simp [Fp.ble] at hx
    simp [Fp.blt] at hg
    simp [Fp.sub, Fp.add, Fp.neg, Fp.ble]
    linarith

/-- A wallet guard that passed the positivity check has a strictly positive
finite amount. -/
theorem pos_of_ble_false (q : ℚ) (hg : Fp.ble (.fin q) (.fin 0) = false) :
    0 < q := by
  simp [Fp.ble] at hg
  exact hg

/-- Deposit of a finite amount preserves non-negativity of all balances. -/
theorem deposit_preserves_nonneg (af : Bool) (db : DB) (u : String) (q : ℚ)
    (hinv : balancesNonneg db) :
    balancesNonneg (Deposit af db u (.fin q)).2.2 := by
  by_cases hq0 : q ≤ 0
  · have hg : Fp.ble (.fin q) (.fin 0) = true := by
      simp [Fp.ble]
      exact hq0
    unfold Deposit
    rw [hg]
    exact hinv
  · have hqpos : 0 < q := not_le.mp hq0
    have hg : Fp.ble (.fin q) (.fin 0) = false := by
      simp [Fp.ble]
      exact not_le.mp hq0
    unfold Deposit
    rw [hg]
    cases hw : getWalletByUserIDTx db u with
    | none => exact hinv
    | some w =>
      have hmem : w ∈ db.wallets := List.mem_of_find?_eq_some hw
      have hv := nonneg_add_fin w.balance q (hinv w hmem) hqpos
      cases af with
      | true => exact balancesNonneg_update db u _ hv hinv
      | false =>
        exact balancesNonneg_append _ _ (balancesNonneg_update db u _ hv hinv)

/-- Withdraw of a finite amount preserves non-negativity of all balances. -/
theorem withdraw_preserves_nonneg (af : Bool) (db : DB) (u : String) (q : ℚ)
    (hinv : balancesNonneg db) :
    balancesNonneg (Withdraw af db u (.fin q)).2.2 := by
  by_cases hq0 : q ≤ 0
  · have hg : Fp.ble (.fin q) (.fin 0) = true := by
      simp [Fp.ble]
      exact hq0
    unfold Withdraw
    rw [hg]
    exact hinv
  · have hg : Fp.ble (.fin q) (.fin 0) = false := by
      simp [Fp.ble]
      exact not_le.mp hq0
    unfold Withdraw
    rw [hg]
    cases hw : getWalletByUserIDTx db u with
    | none => exact hinv
    | some w =>
      have hmem : w ∈ db.wallets := List.mem_of_find?_eq_some hw
      show balancesNonneg
          ((if Fp.blt w.balance (.fin q) = true then
              ((Except.error WErr.insufficientBalance, UoW.committed, db) :
                Except WErr Wallet × UoW × DB)
            else
              (Except.ok { w with balance := Fp.sub w.balance (.fin q) },
               UoW.committed,
               if af = true then
                 updateWalletBalanceTx db u (Fp.sub w.balance (.fin q))
               else
                 createTransactionTx
                   (updateWalletBalanceTx db u (Fp.sub w.balance (.fin q)))
                   ⟨w.id, .withdraw, .fin q, none⟩))).2.2
      cases hb : Fp.blt w.balance (.fin q) with
      | true => exact hinv
      | false =>
        have hv := nonneg_sub_fin w.balance q (hinv w hmem) hb
        cases af with
        | true => exact balancesNonneg_update db u _ hv hinv
        | false =>
          exact balancesNonneg_append _ _ (balancesNonneg_update db u _ hv hinv)

/-- Transfer of a finite amount preserves non-negativity of all balances. -/
theorem transfer_preserves_nonneg (af : Bool) (db : DB) (fu tu : String) (q : ℚ)
    (hinv : balancesNonneg db) :
    balancesNonneg (Transfer af db fu tu (.fin q)).2.2 := by
  by_cases hq0 : q ≤ 0
  · have hg : Fp.ble (.fin q) (.fin 0) = true := by
      simp [Fp.ble]
      exact hq0
    unfold Transfer
    rw [hg]
    exact hinv
  · have hqpos : 0 < q := not_le.mp hq0
    have hg : Fp.ble (.fin q) (.fin 0) = false := by
      simp [Fp.ble]
      exact not_le.mp hq0
    unfold Transfer
    rw [hg]
    cases hs : (fu == tu) with
    | true => exact hinv
    | false =>
      cases hf : getWalletByUserIDTx db fu with
      | none => exact hinv
      | some fw =>
        cases ht : getWalletByUserIDTx db tu with
        | none => exact hinv
        | some tw =>
          have hfmem : fw ∈ db.wallets := List.mem_of_find?_eq_some hf
          have htmem : tw ∈ db.wallets := List.mem_of_find?_eq_some ht
          show balancesNonneg
              ((if Fp.blt fw.balance (.fin q) = true then
                  ((Except.error WErr.insufficientBalance, UoW.committed, db) :
                    Except WErr Unit × UoW × DB)
                else
                  (Except.ok (), UoW.committed,
                   let db2 := updateWalletBalanceTx
                     (updateWalletBalanceTx db fu (Fp.sub fw.balance (.fin q))) tu
                     (Fp.add tw.balance (.fin q))
                   let db3 := if af = true then db2 else
                     createTransactionTx db2 ⟨fw.id, .transferOut, .fin q, some tu⟩
                   let db4 := if af = true then db3 else
                     createTransactionTx db3 ⟨tw.id, .transferIn, .fin q, some fu⟩
                   db4))).2.2
          cases hb : Fp.blt fw.balance (.fin q) with
          | true => exact hinv
          | false =>
            have hv1 := nonneg_sub_fin fw.balance q (hinv fw hfmem) hb
            have hv2 := nonneg_add_fin tw.balance q (hinv tw htmem) hqpos
            have hmid := balancesNonneg_update
              (updateWalletBalanceTx db fu (Fp.sub fw.balance (.fin q))) tu
              (Fp.add tw.balance (.fin q)) hv2
              (balancesNonneg_update db fu _ hv1 hinv)
            cases af with
            | true => exact hmid
            | false =>
              exact balancesNonneg_append _ _ (balancesNonneg_append _ _ hmid)

/-- C9 (amended): starting from a store whose balances are all non-negative, any
committed Deposit, Withdraw or Transfer with a FINITE amount leaves every stored
balance non-negative.  The restriction to finite amounts is forced: the services
validate only `amount <= 0`, which NaN passes, and a NaN amount commits a NaN
balance (see the counterexample). -/
theorem C9_nonneg_preserved (af : Bool) (db : DB) (op : Op)
    (hfin : ∃ q, op.amount = Fp.fin q)
    (hc : (applyOp af db op).1 = .committed)
    (hinv : balancesNonneg db) :
    balancesNonneg (applyOp af db op).2 := by
  obtain ⟨q, hq⟩ := hfin
  cases op with
  | dep u a =>
    simp only [Op.amount] at hq
    subst hq
    exact deposit_preserves_nonneg af db u q hinv
  | wd u a =>
    simp only [Op.amount] at hq
    subst hq
    exact withdraw_preserves_nonneg af db u q hinv
  | tr fu tu a =>
    simp only [Op.amount] at hq
    subst hq
    exact transfer_preserves_nonneg af db fu tu q hinv

/-- Witness for C9 at a concrete input: a committed Withdraw of 3 from balance
10 leaves the single stored balance (7) non-negative. -/
theorem C9_nonneg_preserved_witness :
    (∃ q, (Op.wd "u1" (.fin 3)).amount = Fp.fin q)
    ∧ (applyOp false ⟨[⟨"w1", "u1", .fin 10⟩], []⟩ (.wd "u1" (.fin 3))).1
        = .committed
    ∧ balancesNonneg
        (applyOp false ⟨[⟨"w1", "u1", .fin 10⟩], []⟩ (.wd "u1" (.fin 3))).2 := by
  have hc : (applyOp false ⟨[⟨"w1", "u1", .fin 10⟩], []⟩ (.wd "u1" (.fin 3))).1
      = .committed := by
    show (Withdraw false ⟨[⟨"w1", "u1", .fin 10⟩], []⟩ "u1" (.fin 3)).2.1
        = .committed
    rw [withdraw_run false ⟨[⟨"w1", "u1", .fin 10⟩], []⟩ "u1"
      ⟨"w1", "u1", .fin 10⟩ 3 10 (by norm_num) rfl rfl (by norm_num)]
  have hinv : balancesNonneg ⟨[⟨"w1", "u1", .fin 10⟩], []⟩ := by
    intro w hw
    simp only [List.mem_singleton] at hw
    subst hw
    simp [Fp.ble]
  exact ⟨⟨3, rfl⟩, hc,
    C9_nonneg_preserved false ⟨[⟨"w1", "u1", .fin 10⟩], []⟩ (.wd "u1" (.fin 3))
      ⟨3, rfl⟩ hc hinv⟩

/-- C9 counterexample: a Withdraw of amount NaN from a wallet holding 10 passes
the `amount <= 0` check (false for NaN) and the `balance < amount` check (also
false for NaN), commits, and stores balance 10 - NaN = NaN, which is not >= 0 —
refuting the claim for the non-finite amounts the services accept. -/
theorem C9_nonneg_counterexample :
    (applyOp false ⟨[⟨"w1", "u1", .fin 10⟩], []⟩ (.wd "u1" .nan)).1 = .committed
    ∧ ¬ balancesNonneg
        (applyOp false ⟨[⟨"w1", "u1", .fin 10⟩], []⟩ (.wd "u1" .nan)).2 := by
  refine ⟨by decide, ?_⟩
  intro hinv
  have hmem : (⟨"w1", "u1", .nan⟩ : Wallet)
      ∈ (applyOp false ⟨[⟨"w1", "u1", .fin 10⟩], []⟩ (.wd "u1" .nan)).2.wallets := by
    decide
  have := hinv ⟨"w1", "u1", .nan⟩ hmem
  simp [Fp.ble] at this

/-- C10: for every transaction list, every offset, and every limit between 1 and
100, the handler's pagination is total and safe: both Go slice expressions it
takes are in bounds (no out-of-range index), the result is exactly the contiguous
sub-list of at most limit records starting at offset, and it is empty when the
offset is at or past the end of the list. -/
theorem C10_pagination_safe (txs : List TransactionRec) (offset limit : ℕ)
    (h1 : 1 ≤ limit) (h2 : limit ≤ 100) :
    paginateTransactions txs offset limit = some ((txs.drop offset).take limit)
    ∧ ((txs.drop offset).take limit).length ≤ limit
    ∧ (txs.length ≤ offset → (txs.drop offset).take limit = [])
    ∧ ∃ l1 l2, txs = l1 ++ ((txs.drop offset).take limit) ++ l2 := by
  have hempty : txs.length ≤ offset → (txs.drop offset).take limit = [] := by
    intro hle
    rw [List.drop_eq_nil_of_le hle, List.take_nil]
  refine ⟨?_, ?_, hempty, ?_⟩
  · unfold paginateTransactions goSlice
    by_cases hc1 : txs.length ≤ offset
    · rw [if_pos hc1, hempty hc1]
    · rw [if_neg hc1]
      have hoff : offset ≤ txs.length := le_of_lt (not_le.mp hc1)
      by_cases hc2 : txs.length < offset + limit
      · rw [if_pos hc2, if_pos ⟨hoff, le_refl txs.length⟩]
        congr 1
        have hdlen : (txs.drop offset).length = txs.length - offset :=
          List.length_drop offset txs
        have hfull : (txs.drop offset).take (txs.length - offset) = txs.drop offset := by
          rw [← hdlen]
          exact List.take_length (txs.drop offset)
        have hlim : (txs.drop offset).take limit = txs.drop offset := by
          apply List.take_of_length_le
          rw [hdlen]
          omega
        rw [hfull, hlim]
      · rw [if_neg hc2, if_pos ⟨Nat.le_add_right offset limit, not_lt.mp hc2⟩,
          Nat.add_sub_cancel_left]
  · exact List.length_take_le limit (txs.drop offset)
  · refine ⟨txs.take offset, (txs.drop offset).drop limit, ?_⟩
    conv_lhs => rw [← List.take_append_drop offset txs,
      ← List.take_append_drop limit (txs.drop offset)]
    rw [List.append_assoc]

/-- Witness for C10 at a concrete input: a three-record history paged with
offset 1 and limit 2. -/
theorem C10_pagination_safe_witness :
    1 ≤ 2 ∧ 2 ≤ 100 ∧
    (paginateTransactions
        [⟨"w1", .deposit, .fin 4, none⟩, ⟨"w1", .withdraw, .fin 1, none⟩,
         ⟨"w1", .deposit, .fin 2, none⟩] 1 2
      = some (([⟨"w1", .deposit, .fin 4, none⟩, ⟨"w1", .withdraw, .fin 1, none⟩,
         ⟨"w1", .deposit, .fin 2, none⟩].drop 1).take 2)
    ∧ ((([⟨"w1", .deposit, .fin 4, none⟩, ⟨"w1", .withdraw, .fin 1, none⟩,
         ⟨"w1", .deposit, .fin 2, none⟩] :
          List TransactionRec).drop 1).take 2).length ≤ 2
    ∧ (([⟨"w1", .deposit, .fin 4, none⟩, ⟨"w1", .withdraw, .fin 1, none⟩,
         ⟨"w1", .deposit, .fin 2, none⟩] : List TransactionRec).length ≤ 1 →
        (([⟨"w1", .deposit, .fin 4, none⟩, ⟨"w1", .withdraw, .fin 1, none⟩,
         ⟨"w1", .deposit, .fin 2, none⟩] :
          List TransactionRec).drop 1).take 2 = [])
    ∧ ∃ l1 l2, [⟨"w1", .deposit, .fin 4, none⟩, ⟨"w1", .withdraw, .fin 1, none⟩,
         ⟨"w1", .deposit, .fin 2, none⟩]
        = l1 ++ ((([⟨"w1", .deposit, .fin 4, none⟩, ⟨"w1", .withdraw, .fin 1, none⟩,
         ⟨"w1", .deposit, .fin 2, none⟩] :
          List TransactionRec).drop 1).take 2) ++ l2) :=
  ⟨by decide, by decide,
   C10_pagination_safe
     [⟨"w1", .deposit, .fin 4, none⟩, ⟨"w1", .withdraw, .fin 1, none⟩,
      ⟨"w1", .deposit, .fin 2, none⟩] 1 2 (by decide) (by decide)⟩

end WalletApp

